import Mathlib

/-!
# Verification of the selfca certificate-issuance engine

A shallow embedding of the selfca Go module (package `selfca`: functions
`GenerateCertificate`, `ReadCertificate`, `WriteCertificate`) and of the
CLI orchestration in `cmd/selfca/main.go`, together with theorems settling
the specification claims about it.

Modelling conventions:
* RSA key material is abstract: a key is its modulus size plus an opaque
  natural number standing for the random bits consumed from `crypto/rand`,
  so two keys generated from different draws are distinct values.
* `crypto/rand.Int(rand.Reader, max)` is modelled as `entropy % max` for an
  arbitrary entropy input; the Go call returns a uniformly random
  non-negative integer below `max` and only fails if the reader fails,
  which `crypto/rand.Reader` does not.
* DER / PEM byte strings are modelled symbolically: a `Der` value records
  what the bytes decode to, and a `FileBytes` value records whether the
  file holds a PEM block and what its payload is.
* The filesystem is an association list from paths to file contents plus a
  list of paths on which `os.Create` (or the subsequent write) fails.
* Go panics (nil-pointer dereference, index out of range) are explicit
  outcomes, distinct from returned `error` values.
-/

namespace Selfca

instance {ε α} [DecidableEq ε] [DecidableEq α] : DecidableEq (Except ε α) := fun a b =>
  match a, b with
  | Except.error e1, Except.error e2 =>
    if h : e1 = e2 then Decidable.isTrue (by rw [h]) else
      Decidable.isFalse (by intro hc; cases hc; exact h rfl)
  | Except.ok a1, Except.ok a2 =>
    if h : a1 = a2 then Decidable.isTrue (by rw [h]) else
      Decidable.isFalse (by intro hc; cases hc; exact h rfl)
  | Except.error _, Except.ok _ => Decidable.isFalse (by intro hc; cases hc)
  | Except.ok _, Except.error _ => Decidable.isFalse (by intro hc; cases hc)

/-- An RSA private key as produced by `rsa.GenerateKey(rand.Reader, bits)`:
the modulus size and an opaque stand-in for the random material consumed. -/
structure RSAPrivateKey where
  bits : Int
  material : Nat
deriving DecidableEq

/-- An RSA public key; `publicKey` mirrors Go's `&key.PublicKey`. -/
structure RSAPublicKey where
  bits : Int
  material : Nat
deriving DecidableEq

def publicKey (k : RSAPrivateKey) : RSAPublicKey :=
  { bits := k.bits, material := k.material }

/-- The two `x509.ExtKeyUsage` values this program uses
(`x509.ExtKeyUsageServerAuth`, `x509.ExtKeyUsageClientAuth`). -/
inductive GoExtKeyUsage
  | serverAuth
  | clientAuth
deriving DecidableEq

/-- `x509.KeyUsageDigitalSignature` (bit 0 of the Go `KeyUsage` bitmask). -/
def KeyUsageDigitalSignature : Nat := 1

/-- `x509.KeyUsageKeyEncipherment` (bit 2 of the Go `KeyUsage` bitmask). -/
def KeyUsageKeyEncipherment : Nat := 4

/-- `x509.KeyUsageCertSign` (bit 5 of the Go `KeyUsage` bitmask). -/
def KeyUsageCertSign : Nat := 32

/-!
## Model of `net.ParseIP`

Modelled from the Go standard library `net/ip.go` (`ParseIP`, `parseIPv4`,
`parseIPv6`, `dtoi`, `xtoi`), which the repository calls to classify each
host entry as an IP-address SAN or a DNS-name SAN.  Strings are processed
as their character lists; the repository only feeds it host strings, for
which Go's byte indexing and character indexing agree on ASCII and for
which a non-ASCII byte fails digit/hex tests exactly as a non-ASCII
character does here.  An IP is its 16-byte representation (Go's
`IPv4(a,b,c,d)` yields the 4-in-6 mapped form).
-/

/-- Go `net.big = 0xFFFFFF`, the decimal/hex parsing cutoff. -/
def dtoiBig : Nat := 0xFFFFFF

/-- Go `net.dtoi`: parse a decimal prefix; returns value, characters
consumed, success flag. -/
def dtoiGo : List Char → Nat → Nat → Nat × Nat × Bool
  | [], n, i => if i = 0 then (0, 0, false) else (n, i, true)
  | ch :: rest, n, i =>
    if '0' ≤ ch ∧ ch ≤ '9' then
      let n2 := n * 10 + (ch.toNat - '0'.toNat)
      if n2 ≥ dtoiBig then (dtoiBig, i, false)
      else dtoiGo rest n2 (i + 1)
    else if i = 0 then (0, 0, false) else (n, i, true)

def dtoi (cs : List Char) : Nat × Nat × Bool := dtoiGo cs 0 0

/-- Go `net.xtoi`: parse a hexadecimal prefix; returns value, characters
consumed, success flag. -/
def xtoiGo : List Char → Nat → Nat → Nat × Nat × Bool
  | [], n, i => if i = 0 then (0, i, false) else (n, i, true)
  | ch :: rest, n, i =>
    if '0' ≤ ch ∧ ch ≤ '9' then
      let n2 := n * 16 + (ch.toNat - '0'.toNat)
      if n2 ≥ dtoiBig then (0, i, false) else xtoiGo rest n2 (i + 1)
    else if 'a' ≤ ch ∧ ch ≤ 'f' then
      let n2 := n * 16 + (ch.toNat - 'a'.toNat) + 10
      if n2 ≥ dtoiBig then (0, i, false) else xtoiGo rest n2 (i + 1)
    else if 'A' ≤ ch ∧ ch ≤ 'F' then
      let n2 := n * 16 + (ch.toNat - 'A'.toNat) + 10
      if n2 ≥ dtoiBig then (0, i, false) else xtoiGo rest n2 (i + 1)
    else if i = 0 then (0, i, false) else (n, i, true)

def xtoi (cs : List Char) : Nat × Nat × Bool := xtoiGo cs 0 0

/-- Go `net.IPv4(a, b, c, d)`: the 16-byte 4-in-6 mapped representation. -/
def goIPv4 (a b c d : Nat) : List Nat :=
  [0, 0, 0, 0, 0, 0, 0, 0, 0, 0, 0xff, 0xff, a, b, c, d]

/-- The field loop of Go `net.parseIPv4`: parse `fldsLeft` more
dot-separated decimal octets, rejecting values above 255 and non-zero
octets with leading zeroes; the whole input must be consumed. -/
def parseIPv4Go : Nat → List Char → List Nat → Option (List Nat)
  | 0, cs, acc => if cs.isEmpty then some acc.reverse else none
  | fldsLeft + 1, cs, acc =>
    let afterDot : Option (List Char) :=
      if acc.isEmpty then some cs
      else
        match cs with
        | '.' :: rest => some rest
        | _ => none
    match afterDot with
    | none => none
    | some cs2 =>
      if cs2.isEmpty then none
      else
        match dtoi cs2 with
        | (n, consumed, ok) =>
          if ok = false ∨ n > 0xFF then none
          else if consumed > 1 ∧ cs2.head? = some '0' then none
          else parseIPv4Go fldsLeft (cs2.drop consumed) (n :: acc)

/-- Go `net.parseIPv4` on a character list. -/
def parseIPv4Chars (cs : List Char) : Option (List Nat) :=
  match parseIPv4Go 4 cs [] with
  | some [a, b, c, d] => some (goIPv4 a b c d)
  | _ => none

/-- The main loop of Go `net.parseIPv6`: parse 16-bit hex groups separated
by colons, with at most one `::` ellipsis and an optional trailing
dotted-quad.  Returns the bytes accumulated so far, the byte count, the
ellipsis position and the unconsumed input; `none` is Go's `return nil`.
The fuel only bounds the recursion: each iteration adds two bytes and the
loop runs while fewer than 16 bytes are filled, so 8 units suffice. -/
def parseIPv6Loop : Nat → List Char → Nat → Option Nat → List Nat →
    Option (List Nat × Nat × Option Nat × List Char)
  | fuel, cs, i, ell, acc =>
    if i ≥ 16 then some (acc, i, ell, cs)
    else
      match fuel with
      | 0 => none
      | fuel' + 1 =>
        match xtoi cs with
        | (n, consumed, ok) =>
          if ok = false ∨ n > 0xFFFF then none
          else if (cs.drop consumed).head? = some '.' then
            if ell.isNone ∧ i ≠ 12 then none
            else if i + 4 > 16 then none
            else
              match parseIPv4Go 4 cs [] with
              | none => none
              | some quad => some (acc ++ quad, i + 4, ell, [])
          else
            let acc2 := acc ++ [n / 256, n % 256]
            let i2 := i + 2
            let cs2 := cs.drop consumed
            if cs2.isEmpty then some (acc2, i2, ell, [])
            else
              match cs2 with
              | ':' :: cs3 =>
                if cs3.isEmpty then none
                else
                  match cs3 with
                  | ':' :: cs4 =>
                    if ell.isSome then none
                    else if cs4.isEmpty then some (acc2, i2, some i2, [])
                    else parseIPv6Loop fuel' cs4 i2 (some i2) acc2
                  | _ => parseIPv6Loop fuel' cs3 i2 ell acc2
              | _ => none

/-- Go `net.parseIPv6` on the zone-stripped character list: leading-`::`
handling, the group loop, and the ellipsis expansion into 16 bytes. -/
def parseIPv6Chars (cs0 : List Char) : Option (List Nat) :=
  let start : Option Nat × List Char :=
    match cs0 with
    | ':' :: ':' :: rest => (some 0, rest)
    | _ => (none, cs0)
  match start with
  | (ell0, cs1) =>
    if ell0.isSome ∧ cs1.isEmpty then some (List.replicate 16 0)
    else
      match parseIPv6Loop 8 cs1 0 ell0 [] with
      | none => none
      | some (acc, i, ell, leftover) =>
        if leftover.isEmpty = false then none
        else if i < 16 then
          match ell with
          | none => none
          | some e => some (acc.take e ++ List.replicate (16 - i) 0 ++ acc.drop e)
        else if ell.isSome then none
        else some acc

/-- Go `net.splitHostZone`: everything before the last `%` (the zone is
discarded by `ParseIP`). -/
def hostWithoutZone (cs : List Char) : List Char :=
  match cs.reverse.dropWhile (fun ch => ch != '%') with
  | [] => cs
  | _ :: restRev => restRev.reverse

/-- The dispatch loop of Go `net.ParseIP`: scan for the first `.` or `:`
and hand the whole string to the v4 or v6 parser accordingly. -/
def ipDispatch : List Char → List Char → Option (List Nat)
  | [], _ => none
  | ch :: rest, full =>
    if ch = '.' then parseIPv4Chars full
    else if ch = ':' then parseIPv6Chars (hostWithoutZone full)
    else ipDispatch rest full

/-- Go `net.ParseIP`. -/
def goParseIP (s : String) : Option (List Nat) :=
  ipDispatch s.data s.data

/-!
## Model of `x509.Certificate` and `x509.CreateCertificate`

One record plays both roles Go's `x509.Certificate` plays in this
repository: the template populated by `GenerateCertificate` (where
`IssuerCommonName`, `PublicKey` and `SignedBy` keep their zero values) and
a signed or parsed certificate (where they are filled in).  Only the
fields this repository reads or writes are modelled.
-/

structure X509Certificate where
  SerialNumber : Nat
  SubjectCommonName : String
  IssuerCommonName : String
  NotBefore : Int
  NotAfter : Int
  IsCA : Bool
  BasicConstraintsValid : Bool
  KeyUsage : Nat
  ExtKeyUsage : List GoExtKeyUsage
  IPAddresses : List (List Nat)
  DNSNames : List String
  PublicKey : Option RSAPublicKey
  SignedBy : Option RSAPrivateKey
deriving DecidableEq

/-- A DER byte string, recorded by what it decodes to: the encoding of a
signed certificate (output of `x509.CreateCertificate`), the PKCS#1
encoding of a private key (output of `x509.MarshalPKCS1PrivateKey`), or
bytes that parse as neither. -/
inductive Der
  | cert (c : X509Certificate)
  | pkcs1Key (k : RSAPrivateKey)
  | junk (s : String)
deriving DecidableEq

/-- Outcome of `x509.CreateCertificate`: the DER bytes, or a Go panic. -/
inductive CreateOutcome
  | ok (der : Der)
  | panicked (msg : String)
deriving DecidableEq

/-- Modelled from the Go standard library `crypto/x509.CreateCertificate`
as invoked by this repository (template always carries a serial number and
an RSA public key).  A nil `priv` panics inside `signingParamsForKey`
(`key.Public()` dereferences the nil `*rsa.PrivateKey`), checked before
the parent is touched; a nil `parent` panics inside `subjectBytes`
(`parent.RawSubject`).  On success the issuer of the produced certificate
is the parent's subject and the signature is made with `priv`. -/
def createCertificate (template : X509Certificate) (parent : Option X509Certificate)
    (pub : RSAPublicKey) (priv : Option RSAPrivateKey) : CreateOutcome :=
  match priv with
  | none => CreateOutcome.panicked "runtime error: invalid memory address or nil pointer dereference"
  | some sk =>
    match parent with
    | none => CreateOutcome.panicked "runtime error: invalid memory address or nil pointer dereference"
    | some p =>
      CreateOutcome.ok (Der.cert
        { template with
          IssuerCommonName := p.SubjectCommonName
          PublicKey := some pub
          SignedBy := some sk })

/-!
## The `selfca` library: `Certificate`, `GenerateCertificate`
-/

/-- The `selfca.Certificate` request struct (current version, with
`CommonName` and `KeySize`).  The nilable pointer fields `CAKey` and
`CACertificate` are `Option`s. -/
structure Certificate where
  IsCA : Bool
  CommonName : String
  KeySize : Int
  NotBefore : Int
  NotAfter : Int
  Hosts : List String
  CAKey : Option RSAPrivateKey
  CACertificate : Option X509Certificate
deriving DecidableEq

/-- `selfca.ErrInvalidCertificate`, `selfca.ErrInvalidCertificateKey`, and
the error values of the collaborators `GenerateCertificate`,
`ReadCertificate` and `WriteCertificate` can return: I/O errors carry the
failing path; the two x509 parser failures are distinct error values (Go
returns distinct error messages from `ParseCertificates` and
`ParsePKCS1PrivateKey`). -/
inductive GoError
  | ioError (path : String)
  | errInvalidCertificate
  | errInvalidCertificateKey
  | x509ParseCertificatesError
  | pkcs1ParseError
deriving DecidableEq

/-- Key-material events of one `GenerateCertificate` call, in the order
the code performs them: the serial-number draw, then the RSA key
generation. -/
inductive GenEvent
  | drewSerial (n : Nat)
  | generatedKey (k : RSAPrivateKey)
deriving DecidableEq

/-- Result of `GenerateCertificate`: certificate bytes plus key, a
returned error, or a Go panic (which never returns to the caller). -/
inductive GenOutcome
  | ok (certificate : Der) (key : RSAPrivateKey)
  | failed (e : GoError)
  | panicked (msg : String)
deriving DecidableEq

/-- `serialNumberMax = new(big.Int).Lsh(big.NewInt(1), 128)`. -/
def serialNumberMax : Nat := 2 ^ 128

/-- The SAN loop of `GenerateCertificate`: for each host, append to
`IPAddresses` if `net.ParseIP` accepts it, otherwise to `DNSNames`. -/
def addSANs (t : X509Certificate) (hosts : List String) : X509Certificate :=
  hosts.foldl
    (fun acc v =>
      match goParseIP v with
      | some ip => { acc with IPAddresses := acc.IPAddresses ++ [ip] }
      | none => { acc with DNSNames := acc.DNSNames ++ [v] })
    t

/-- `selfca.GenerateCertificate` (current version).  `serialEntropy` and
`keyMaterial` stand for the random bits drawn from `crypto/rand.Reader`
by `rand.Int` and `rsa.GenerateKey` respectively.  Besides the outcome it
returns the list of key-material events in execution order.  Go's
`c.CACertificate = &template` aliasing in the CA branch means later
mutations of `template` (common-name override, SAN loop) are seen through
the parent pointer, so the parent passed to `createCertificate` is the
final template. -/
def GenerateCertificate (c : Certificate) (serialEntropy : Nat) (keyMaterial : Nat) :
    GenOutcome × List GenEvent :=
  let serialNumber := serialEntropy % serialNumberMax
  let keySize : Int := if c.KeySize ≤ 0 then 2048 else c.KeySize
  let key : RSAPrivateKey := { bits := keySize, material := keyMaterial }
  let events := [GenEvent.drewSerial serialNumber, GenEvent.generatedKey key]
  let template0 : X509Certificate :=
    { SerialNumber := serialNumber
      SubjectCommonName := ""
      IssuerCommonName := ""
      NotBefore := c.NotBefore
      NotAfter := c.NotAfter
      IsCA := c.IsCA
      BasicConstraintsValid := true
      KeyUsage := 0
      ExtKeyUsage := []
      IPAddresses := []
      DNSNames := []
      PublicKey := none
      SignedBy := none }
  if c.IsCA then
    let template1 :=
      { template0 with
        SubjectCommonName := "Root CA"
        KeyUsage := KeyUsageDigitalSignature ||| KeyUsageCertSign
        ExtKeyUsage := [GoExtKeyUsage.serverAuth, GoExtKeyUsage.clientAuth] }
    let template2 :=
      if c.CommonName ≠ "" then { template1 with SubjectCommonName := c.CommonName }
      else template1
    let template3 := addSANs template2 c.Hosts
    match createCertificate template3 (some template3) (publicKey key) (some key) with
    | CreateOutcome.ok der => (GenOutcome.ok der key, events)
    | CreateOutcome.panicked m => (GenOutcome.panicked m, events)
  else
    match c.Hosts with
    | [] => (GenOutcome.panicked "runtime error: index out of range", events)
    | h0 :: _ =>
      let template1 :=
        { template0 with
          SubjectCommonName := h0
          KeyUsage := KeyUsageDigitalSignature ||| KeyUsageKeyEncipherment
          ExtKeyUsage := [GoExtKeyUsage.serverAuth, GoExtKeyUsage.clientAuth] }
      let template2 :=
        if c.CommonName ≠ "" then { template1 with SubjectCommonName := c.CommonName }
        else template1
      let template3 := addSANs template2 c.Hosts
      match createCertificate template3 c.CACertificate (publicKey key) c.CAKey with
      | CreateOutcome.ok der => (GenOutcome.ok der key, events)
      | CreateOutcome.panicked m => (GenOutcome.panicked m, events)

/-- The all-zero certificate record (used as the out-of-domain value of
the projections below). -/
def emptyX509 : X509Certificate :=
  { SerialNumber := 0
    SubjectCommonName := ""
    IssuerCommonName := ""
    NotBefore := 0
    NotAfter := 0
    IsCA := false
    BasicConstraintsValid := false
    KeyUsage := 0
    ExtKeyUsage := []
    IPAddresses := []
    DNSNames := []
    PublicKey := none
    SignedBy := none }

/-- The certificate produced by a successful `GenerateCertificate` call
(`emptyX509` when the call does not succeed). -/
def genCert (c : Certificate) (s k : Nat) : X509Certificate :=
  match (GenerateCertificate c s k).1 with
  | GenOutcome.ok (Der.cert cc) _ => cc
  | _ => emptyX509

/-- The private key returned by a successful `GenerateCertificate` call. -/
def genKey (c : Certificate) (s k : Nat) : RSAPrivateKey :=
  match (GenerateCertificate c s k).1 with
  | GenOutcome.ok _ kk => kk
  | _ => { bits := 0, material := 0 }

/-- The key `GenerateCertificate c _ k` builds: requested size defaulted
to 2048 when non-positive, with this call's key material. -/
def genKeyVal (c : Certificate) (k : Nat) : RSAPrivateKey :=
  { bits := if c.KeySize ≤ 0 then 2048 else c.KeySize, material := k }

/-- The event trace every `GenerateCertificate c s k` call produces:
serial draw first, key generation second. -/
def genEventsVal (c : Certificate) (s k : Nat) : List GenEvent :=
  [GenEvent.drewSerial (s % serialNumberMax), GenEvent.generatedKey (genKeyVal c k)]

/-- The certificate a successful leaf issuance produces, spelled out. -/
def leafCertVal (c : Certificate) (s k : Nat) (h0 : String)
    (cac : X509Certificate) (ck : RSAPrivateKey) : X509Certificate :=
  { SerialNumber := s % serialNumberMax
    SubjectCommonName := if c.CommonName ≠ "" then c.CommonName else h0
    IssuerCommonName := cac.SubjectCommonName
    NotBefore := c.NotBefore
    NotAfter := c.NotAfter
    IsCA := false
    BasicConstraintsValid := true
    KeyUsage := KeyUsageDigitalSignature ||| KeyUsageKeyEncipherment
    ExtKeyUsage := [GoExtKeyUsage.serverAuth, GoExtKeyUsage.clientAuth]
    IPAddresses := c.Hosts.filterMap goParseIP
    DNSNames := c.Hosts.filter (fun h => (goParseIP h).isNone)
    PublicKey := some (publicKey (genKeyVal c k))
    SignedBy := some ck }

/-- The certificate a CA issuance produces, spelled out: self-signed, so
issuer and subject coincide and the signing key is the fresh key. -/
def caCertVal (c : Certificate) (s k : Nat) : X509Certificate :=
  { SerialNumber := s % serialNumberMax
    SubjectCommonName := if c.CommonName ≠ "" then c.CommonName else "Root CA"
    IssuerCommonName := if c.CommonName ≠ "" then c.CommonName else "Root CA"
    NotBefore := c.NotBefore
    NotAfter := c.NotAfter
    IsCA := true
    BasicConstraintsValid := true
    KeyUsage := KeyUsageDigitalSignature ||| KeyUsageCertSign
    ExtKeyUsage := [GoExtKeyUsage.serverAuth, GoExtKeyUsage.clientAuth]
    IPAddresses := c.Hosts.filterMap goParseIP
    DNSNames := c.Hosts.filter (fun h => (goParseIP h).isNone)
    PublicKey := some (publicKey (genKeyVal c k))
    SignedBy := some (genKeyVal c k) }

/-!
## Persistence: the filesystem model, `ReadCertificate`, `WriteCertificate`

A file's contents either hold a PEM block (label plus DER payload) or are
bytes in which `pem.Decode` finds no block.  `badPaths` lists the paths on
which `os.Create`/the subsequent write fails (e.g. a missing directory);
reading a file that was opened succeeds, so `ioutil.ReadAll`'s separate
error path is not distinguished from `os.Open`'s.
-/

inductive FileBytes
  | raw (s : String)
  | pem (label : String) (payload : Der)
deriving DecidableEq

structure FS where
  files : List (String × FileBytes)
  badPaths : List String
deriving DecidableEq

def lookupFile (fs : FS) (p : String) : Option FileBytes :=
  fs.files.lookup p

/-- `os.Stat(p)` succeeding, i.e. the file exists. -/
def fsStat (fs : FS) (p : String) : Bool :=
  (lookupFile fs p).isSome

/-- `os.Create(p)` (or the write through it) failing. -/
def fsCreateFails (fs : FS) (p : String) : Bool :=
  fs.badPaths.contains p

def fsWrite (fs : FS) (p : String) (b : FileBytes) : FS :=
  { fs with files := (p, b) :: fs.files.filter (fun q => q.1 != p) }

/-- `pem.Decode`: the first PEM block of the data, or `nil`.  (The
repository never inspects the block's type label on the read path.) -/
def pemDecode : FileBytes → Option (String × Der)
  | FileBytes.raw _ => none
  | FileBytes.pem label payload => some (label, payload)

/-- `x509.ParseCertificates` on a DER payload: succeeds exactly on the
encoding of certificates, failing with its own parse error otherwise. -/
def parseCertificates : Der → Except GoError (List X509Certificate)
  | Der.cert c => Except.ok [c]
  | _ => Except.error GoError.x509ParseCertificatesError

/-- `x509.ParsePKCS1PrivateKey` on a DER payload. -/
def parsePKCS1PrivateKey : Der → Except GoError RSAPrivateKey
  | Der.pkcs1Key k => Except.ok k
  | _ => Except.error GoError.pkcs1ParseError

/-- `selfca.ReadCertificate` (current version): read `<name>.crt`, decode
its PEM block (`ErrInvalidCertificate` when absent), parse the
certificates, then the same for `<name>.key` with
`ErrInvalidCertificateKey` and the PKCS#1 parser.  Each failure is
returned to the caller immediately. -/
def ReadCertificate (fs : FS) (name : String) :
    Except GoError (List X509Certificate × RSAPrivateKey) :=
  match lookupFile fs (name ++ ".crt") with
  | none => Except.error (GoError.ioError (name ++ ".crt"))
  | some data =>
    match pemDecode data with
    | none => Except.error GoError.errInvalidCertificate
    | some (_, der) =>
      match parseCertificates der with
      | Except.error e => Except.error e
      | Except.ok certificate =>
        match lookupFile fs (name ++ ".key") with
        | none => Except.error (GoError.ioError (name ++ ".key"))
        | some kdata =>
          match pemDecode kdata with
          | none => Except.error GoError.errInvalidCertificateKey
          | some (_, kder) =>
            match parsePKCS1PrivateKey kder with
            | Except.error e => Except.error e
            | Except.ok key => Except.ok (certificate, key)

/-- `selfca.WriteCertificate` (current version): create `<name>.crt` and
encode the certificate into it, then create `<name>.key` and encode the
PKCS#1 key; fail at the first error, leaving earlier writes in place.
Returns the result together with the filesystem after the call. -/
def WriteCertificate (fs : FS) (name : String) (certificate : Der)
    (key : RSAPrivateKey) : Except GoError Unit × FS :=
  let certificateName := name ++ ".crt"
  if fsCreateFails fs certificateName then
    (Except.error (GoError.ioError certificateName), fs)
  else
    let fs1 := fsWrite fs certificateName (FileBytes.pem "CERTIFICATE" certificate)
    let keyName := name ++ ".key"
    if fsCreateFails fs1 keyName then
      (Except.error (GoError.ioError keyName), fs1)
    else
      (Except.ok (), fsWrite fs1 keyName (FileBytes.pem "RSA PRIVATE KEY" (Der.pkcs1Key key)))

/-!
## The CLI orchestration (`cmd/selfca/main.go`)

`mainRun` models `main` from after flag parsing: the empty-host-list
usage exit, the CA-container probe at `<output>/ca.crt`, the NEED_CA
branch (generate a 10-year CA, persist it, reparse its DER) and the
HAVE_CA branch (decode the existing container), then leaf issuance signed
by the held CA and persistence under the first host's name.  Flag
parsing, `time.Parse` and `os.MkdirAll` are the out-of-scope glue: hosts
arrive already split and trimmed, times as integers (in hours), and
directory-creation failures are representable through `badPaths`.
`os.Exit(1)` after a fatal message is the `fatal` outcome.  The events
list records CA generation, CA decoding and leaf issuance. -/

inductive MainEvent
  | generatedCA (der : Der) (key : RSAPrivateKey)
  | readCA (certs : List X509Certificate) (key : RSAPrivateKey)
  | generatedLeaf (der : Der) (key : RSAPrivateKey)
deriving DecidableEq

inductive MainOutcome
  | usageExit
  | fatal (stage : String)
  | panicked (msg : String)
  | success
deriving DecidableEq

structure MainResult where
  outcome : MainOutcome
  fs : FS
  events : List MainEvent
deriving DecidableEq

/-- The leaf half of `main`: generate the certificate for `hosts` signed
by the held CA key and certificate, then write it under
`<output>/<hosts[0]>`. -/
def issueLeaf (fs : FS) (hosts : List String) (h0 : String) (nm : String)
    (bits : Int) (notBefore notAfter : Int) (output : String)
    (caCert : X509Certificate) (caKey : RSAPrivateKey)
    (events : List MainEvent) (leafSE leafKM : Nat) : MainResult :=
  match GenerateCertificate
      { IsCA := false
        CommonName := nm
        KeySize := bits
        NotBefore := notBefore
        NotAfter := notAfter
        Hosts := hosts
        CAKey := some caKey
        CACertificate := some caCert } leafSE leafKM with
  | (GenOutcome.failed _, _) =>
    { outcome := MainOutcome.fatal "generate the certificate", fs := fs, events := events }
  | (GenOutcome.panicked m, _) =>
    { outcome := MainOutcome.panicked m, fs := fs, events := events }
  | (GenOutcome.ok der key, _) =>
    let events2 := events ++ [MainEvent.generatedLeaf der key]
    match WriteCertificate fs (output ++ "/" ++ h0) der key with
    | (Except.error _, fs2) =>
      { outcome := MainOutcome.fatal "write the certificate", fs := fs2, events := events2 }
    | (Except.ok _, fs2) =>
      { outcome := MainOutcome.success, fs := fs2, events := events2 }

/-- `main` from `cmd/selfca/main.go` (current version), from after flag
parsing; see the section comment above. -/
def mainRun (fs : FS) (hosts : List String) (nm : String) (bits : Int)
    (notBefore : Int) (days : Int) (output : String)
    (caSE caKM leafSE leafKM : Nat) : MainResult :=
  match hosts with
  | [] => { outcome := MainOutcome.usageExit, fs := fs, events := [] }
  | h0 :: _ =>
    let notAfter := notBefore + days * 24
    let output2 := if output = "" then "cert" else output
    let caPath := output2 ++ "/ca"
    if fsStat fs (caPath ++ ".crt") then
      match ReadCertificate fs caPath with
      | Except.error _ =>
        { outcome := MainOutcome.fatal "load ca certificate", fs := fs, events := [] }
      | Except.ok (caCerts, caKey) =>
        match caCerts with
        | [] =>
          { outcome := MainOutcome.panicked "runtime error: index out of range"
            fs := fs
            events := [MainEvent.readCA [] caKey] }
        | caCert :: _ =>
          issueLeaf fs hosts h0 nm bits notBefore notAfter output2 caCert caKey
            [MainEvent.readCA caCerts caKey] leafSE leafKM
    else
      let caNotAfter := notBefore + 10 * 365 * 24
      match GenerateCertificate
          { IsCA := true
            CommonName := ""
            KeySize := bits
            NotBefore := notBefore
            NotAfter := caNotAfter
            Hosts := []
            CAKey := none
            CACertificate := none } caSE caKM with
      | (GenOutcome.failed _, _) =>
        { outcome := MainOutcome.fatal "generate ca certificate", fs := fs, events := [] }
      | (GenOutcome.panicked m, _) =>
        { outcome := MainOutcome.panicked m, fs := fs, events := [] }
      | (GenOutcome.ok der caKey, _) =>
        let events := [MainEvent.generatedCA der caKey]
        match WriteCertificate fs caPath der caKey with
        | (Except.error _, fs1) =>
          { outcome := MainOutcome.fatal "write ca certificate", fs := fs1, events := events }
        | (Except.ok _, fs1) =>
          match parseCertificates der with
          | Except.error _ =>
            { outcome := MainOutcome.fatal "parse ca certificate", fs := fs1, events := events }
          | Except.ok caCerts =>
            match caCerts with
            | [] =>
              { outcome := MainOutcome.panicked "runtime error: index out of range"
                fs := fs1
                events := events }
            | caCert :: _ =>
              issueLeaf fs1 hosts h0 nm bits notBefore notAfter output2 caCert caKey
                events leafSE leafKM

/-- `true` iff no CA-generation event occurs in the trace. -/
def noGeneratedCA (es : List MainEvent) : Bool :=
  es.all fun e =>
    match e with
    | MainEvent.generatedCA _ _ => false
    | _ => true

/-- `true` iff every leaf issued in the trace is a certificate signed
with `caKey` whose issuer is `caCN`. -/
def leafSignedBy (caKey : RSAPrivateKey) (caCN : String) (es : List MainEvent) : Bool :=
  es.all fun e =>
    match e with
    | MainEvent.generatedLeaf (Der.cert lc) _ =>
      lc.SignedBy == some caKey && lc.IssuerCommonName == caCN
    | MainEvent.generatedLeaf _ _ => false
    | _ => true

/-- `true` iff the trace contains a leaf-issuance event. -/
def isLeafIssued : MainEvent → Bool
  | MainEvent.generatedLeaf _ _ => true
  | _ => false

/-!
## Concrete data for witnesses and counterexamples
-/

/-- A leaf request with an empty host list. -/
def cEmptyHosts : Certificate :=
  { IsCA := false, CommonName := "", KeySize := 0, NotBefore := 0, NotAfter := 1,
    Hosts := [], CAKey := none, CACertificate := none }

/-- A leaf request with a host but no signing material. -/
def cNilCA : Certificate :=
  { IsCA := false, CommonName := "", KeySize := 0, NotBefore := 0, NotAfter := 1,
    Hosts := ["example.com"], CAKey := none, CACertificate := none }

def caKeyEx : RSAPrivateKey := { bits := 2048, material := 11 }

/-- A CA certificate as a prior run would have persisted it. -/
def caCertEx : X509Certificate :=
  { SerialNumber := 9, SubjectCommonName := "Root CA", IssuerCommonName := "Root CA",
    NotBefore := 0, NotAfter := 87600, IsCA := true, BasicConstraintsValid := true,
    KeyUsage := 33, ExtKeyUsage := [GoExtKeyUsage.serverAuth, GoExtKeyUsage.clientAuth],
    IPAddresses := [], DNSNames := [], PublicKey := some { bits := 2048, material := 11 },
    SignedBy := some caKeyEx }

/-- A filesystem holding the persisted CA pair under `cert/ca`. -/
def fsWithCA : FS :=
  { files := [("cert/ca.crt", FileBytes.pem "CERTIFICATE" (Der.cert caCertEx)),
              ("cert/ca.key", FileBytes.pem "RSA PRIVATE KEY" (Der.pkcs1Key caKeyEx))],
    badPaths := [] }

/-- A well-formed leaf request: one IP host, one DNS host, CA material. -/
def cLeafEx : Certificate :=
  { IsCA := false, CommonName := "", KeySize := 0, NotBefore := 0, NotAfter := 1,
    Hosts := ["127.0.0.1", "example.com"], CAKey := some caKeyEx,
    CACertificate := some caCertEx }

/-- A CA request, with stale signing material filled in by the caller. -/
def cCAEx : Certificate :=
  { IsCA := true, CommonName := "", KeySize := 0, NotBefore := 0, NotAfter := 10,
    Hosts := [], CAKey := none, CACertificate := none }

def fsEmptyFS : FS := { files := [], badPaths := [] }

/-- `ca.crt` holds bytes in which no PEM block is found. -/
def fsRawCrt : FS := { files := [("ca.crt", FileBytes.raw "0")], badPaths := [] }

/-- `ca.crt` holds a PEM block whose DER payload is not a certificate. -/
def fsBadDerCrt : FS :=
  { files := [("ca.crt", FileBytes.pem "CERTIFICATE" (Der.junk "x"))], badPaths := [] }

/-- A valid `ca.crt` with no `ca.key` beside it. -/
def fsCrtOnly : FS :=
  { files := [("ca.crt", FileBytes.pem "CERTIFICATE" (Der.cert caCertEx))], badPaths := [] }

/-- A valid `ca.crt` whose `ca.key` holds non-PEM bytes. -/
def fsRawKey : FS :=
  { files := [("ca.crt", FileBytes.pem "CERTIFICATE" (Der.cert caCertEx)),
              ("ca.key", FileBytes.raw "0")], badPaths := [] }

/-- A valid `ca.crt` whose `ca.key` PEM payload is not a PKCS#1 key. -/
def fsBadDerKey : FS :=
  { files := [("ca.crt", FileBytes.pem "CERTIFICATE" (Der.cert caCertEx)),
              ("ca.key", FileBytes.pem "RSA PRIVATE KEY" (Der.junk "x"))], badPaths := [] }

/-- A filesystem on which creating `out/ca.key` fails. -/
def fsBadKeyPath : FS := { files := [], badPaths := ["out/ca.key"] }

/-!
## Helper lemmas
-/

theorem addSANs_eq (hosts : List String) (t : X509Certificate) :
    addSANs t hosts =
      { t with
        IPAddresses := t.IPAddresses ++ hosts.filterMap goParseIP
        DNSNames := t.DNSNames ++ hosts.filter (fun h => (goParseIP h).isNone) } := by
  induction hosts generalizing t with
  | nil => simp [addSANs]
  | cons h hs ih =>
    rcases hgp : goParseIP h with _ | ip
    · simp only [addSANs, List.foldl_cons, hgp] at ih ⊢
      rw [ih]
      simp [hgp, List.filterMap_cons, List.filter_cons, List.append_assoc]
    · simp only [addSANs, List.foldl_cons, hgp] at ih ⊢
      rw [ih]
      simp [hgp, List.filterMap_cons, List.filter_cons, List.append_assoc]

theorem length_classified {α β : Type} (f : α → Option β) (l : List α) :
    (l.filterMap f).length + (l.filter (fun x => (f x).isNone)).length = l.length := by
  induction l with
  | nil => simp
  | cons x xs ih =>
    rcases hfx : f x with _ | y <;>
      simp [List.filterMap_cons, List.filter_cons, hfx] <;> omega

theorem crt_ne_key (name : String) : name ++ ".crt" ≠ name ++ ".key" := by
  intro h
  have h2 : (name ++ ".crt").data = (name ++ ".key").data := congrArg String.data h
  simp [String.data_append] at h2

/-- A successful leaf issuance, fully characterized: any leaf request with
at least one host and both pieces of signing material yields the
certificate `leafCertVal`, the fresh key, and the serial/key event trace. -/
theorem gen_leaf (c : Certificate) (s k : Nat) (h0 : String) (rest : List String)
    (ck : RSAPrivateKey) (cac : X509Certificate)
    (h1 : c.IsCA = false) (h2 : c.Hosts = h0 :: rest)
    (h3 : c.CAKey = some ck) (h4 : c.CACertificate = some cac) :
    GenerateCertificate c s k =
      (GenOutcome.ok (Der.cert (leafCertVal c s k h0 cac ck)) (genKeyVal c k),
       genEventsVal c s k) := by
  by_cases hcn : c.CommonName = "" <;>
    simp [GenerateCertificate, h1, h2, h3, h4, hcn, addSANs_eq, createCertificate,
      leafCertVal, genKeyVal, genEventsVal, serialNumberMax]

/-- A CA issuance, fully characterized: it always succeeds, self-signed
with the freshly generated key, regardless of the request's `CAKey` and
`CACertificate` fields. -/
theorem gen_ca (c : Certificate) (s k : Nat) (h1 : c.IsCA = true) :
    GenerateCertificate c s k =
      (GenOutcome.ok (Der.cert (caCertVal c s k)) (genKeyVal c k), genEventsVal c s k) := by
  by_cases hcn : c.CommonName = "" <;>
    simp [GenerateCertificate, h1, hcn, addSANs_eq, createCertificate,
      caCertVal, genKeyVal, genEventsVal, serialNumberMax]

theorem genCert_leaf (c : Certificate) (s k : Nat) (h0 : String) (rest : List String)
    (ck : RSAPrivateKey) (cac : X509Certificate)
    (h1 : c.IsCA = false) (h2 : c.Hosts = h0 :: rest)
    (h3 : c.CAKey = some ck) (h4 : c.CACertificate = some cac) :
    genCert c s k = leafCertVal c s k h0 cac ck := by
  unfold genCert
  rw [gen_leaf c s k h0 rest ck cac h1 h2 h3 h4]

theorem genCert_ca (c : Certificate) (s k : Nat) (h1 : c.IsCA = true) :
    genCert c s k = caCertVal c s k := by
  unfold genCert
  rw [gen_ca c s k h1]

theorem genKey_leaf (c : Certificate) (s k : Nat) (h0 : String) (rest : List String)
    (ck : RSAPrivateKey) (cac : X509Certificate)
    (h1 : c.IsCA = false) (h2 : c.Hosts = h0 :: rest)
    (h3 : c.CAKey = some ck) (h4 : c.CACertificate = some cac) :
    genKey c s k = genKeyVal c k := by
  unfold genKey
  rw [gen_leaf c s k h0 rest ck cac h1 h2 h3 h4]

theorem genKey_ca (c : Certificate) (s k : Nat) (h1 : c.IsCA = true) :
    genKey c s k = genKeyVal c k := by
  unfold genKey
  rw [gen_ca c s k h1]

/-- The event trace of the leaf half of `main`: the held CA's key and
certificate sign the leaf, which is recorded after the input events. -/
theorem issueLeaf_events (fs : FS) (h0 : String) (rest : List String) (nm : String)
    (bits nb na : Int) (out : String) (cac : X509Certificate) (ck : RSAPrivateKey)
    (evs : List MainEvent) (lse lkm : Nat) :
    (issueLeaf fs (h0 :: rest) h0 nm bits nb na out cac ck evs lse lkm).events =
      evs ++ [MainEvent.generatedLeaf
        (Der.cert (leafCertVal
          { IsCA := false, CommonName := nm, KeySize := bits, NotBefore := nb,
            NotAfter := na, Hosts := h0 :: rest, CAKey := some ck,
            CACertificate := some cac } lse lkm h0 cac ck))
        (genKeyVal
          { IsCA := false, CommonName := nm, KeySize := bits, NotBefore := nb,
            NotAfter := na, Hosts := h0 :: rest, CAKey := some ck,
            CACertificate := some cac } lkm)] := by
  unfold issueLeaf
  rw [gen_leaf _ lse lkm h0 rest ck cac rfl rfl rfl rfl]
  split <;> simp_all
  split <;> simp_all

/-- The two ways an issuance request can be well-formed, with the
certificate each produces: a CA request (always succeeds, self-signed),
or a leaf request with a host and both pieces of signing material. -/
theorem genCert_cases (c : Certificate) (s k : Nat)
    (h : c.IsCA = true ∨
      (c.Hosts ≠ [] ∧ c.CAKey.isSome = true ∧ c.CACertificate.isSome = true)) :
    (c.IsCA = true ∧ genCert c s k = caCertVal c s k) ∨
    (∃ h0 rest ck cac, c.IsCA = false ∧ c.Hosts = h0 :: rest ∧ c.CAKey = some ck ∧
      c.CACertificate = some cac ∧ genCert c s k = leafCertVal c s k h0 cac ck) := by
  cases hca : c.IsCA with
  | true => exact Or.inl ⟨rfl, genCert_ca c s k hca⟩
  | false =>
    rcases h with h | ⟨hH, hK, hC⟩
    · exact absurd h (by simp [hca])
    · obtain ⟨ck, hK2⟩ := Option.isSome_iff_exists.mp hK
      obtain ⟨cac, hC2⟩ := Option.isSome_iff_exists.mp hC
      rcases hHs : c.Hosts with _ | ⟨h0, rest⟩
      · exact absurd hHs hH
      · exact Or.inr ⟨h0, rest, ck, cac, rfl, rfl, hK2, hC2,
          genCert_leaf c s k h0 rest ck cac hca hHs hK2 hC2⟩

/-- `List.lookup` ignores entries removed by filtering out a different
key. -/
theorem lookup_filter_ne (l : List (String × FileBytes)) (p q : String) (h : p ≠ q) :
    (l.filter (fun e => e.1 != q)).lookup p = l.lookup p := by
  induction l with
  | nil => rfl
  | cons e l ih =>
    rcases e with ⟨a, b⟩
    by_cases he : a = q
    · subst he
      have hpa : (p == a) = false := beq_eq_false_iff_ne.mpr h
      simpa [List.filter_cons, List.lookup, hpa] using ih
    · by_cases hpa : p = a
      · subst hpa
        simp [List.filter_cons, List.lookup, he]
      · simpa [List.filter_cons, List.lookup, he, beq_eq_false_iff_ne.mpr hpa] using ih

/-!
## The claims
-/

/-- C1, counterexample: a leaf request with an empty host list does not
make `GenerateCertificate` return an error before key material is
generated — the call panics (index out of range on `Hosts[0]`), and only
after the serial number has been drawn and the RSA key generated, as its
event trace shows. -/
theorem C1_counterexample :
    (GenerateCertificate cEmptyHosts 5 7).1 =
      GenOutcome.panicked "runtime error: index out of range" ∧
    (GenerateCertificate cEmptyHosts 5 7).2 =
      [GenEvent.drewSerial 5, GenEvent.generatedKey { bits := 2048, material := 7 }] :=
  ⟨by decide, by decide⟩

/-- C1, amended: for every issuance request with `IsCA` false and an
empty host list, `GenerateCertificate` panics with an index-out-of-range
runtime error instead of returning an error, and only after both the
serial number and the RSA key pair have been generated; the
invocation-level rejection of an empty host list is performed by the CLI
orchestration, which exits with a usage message before any generation. -/
theorem C1_empty_hosts (c : Certificate) (s k : Nat) (fs : FS) (nm : String)
    (bits nb days : Int) (out : String) (a b d e : Nat)
    (h1 : c.IsCA = false) (h2 : c.Hosts = []) :
    (GenerateCertificate c s k).1 =
      GenOutcome.panicked "runtime error: index out of range" ∧
    (GenerateCertificate c s k).2 = genEventsVal c s k ∧
    mainRun fs [] nm bits nb days out a b d e =
      { outcome := MainOutcome.usageExit, fs := fs, events := [] } := by
  refine ⟨?_, ?_, by simp [mainRun]⟩ <;>
    simp [GenerateCertificate, h1, h2, genEventsVal, genKeyVal]

/-- C1, witness for the amended claim at a concrete request. -/
theorem C1_empty_hosts_witness :
    cEmptyHosts.IsCA = false ∧ cEmptyHosts.Hosts = [] ∧
    (GenerateCertificate cEmptyHosts 5 7).1 =
      GenOutcome.panicked "runtime error: index out of range" :=
  ⟨rfl, rfl, (C1_empty_hosts cEmptyHosts 5 7 fsEmptyFS "" 2048 0 365 "cert" 0 0 0 0
    rfl rfl).1⟩

/-- C3, counterexample: a leaf request with a host but no signing
material does not get a returned error — `GenerateCertificate` forwards
the nil `CAKey`/`CACertificate` into `x509.CreateCertificate`, which
dereferences them, so the call crashes with a nil-pointer panic. -/
theorem C3_counterexample :
    (GenerateCertificate cNilCA 1 2).1 =
      GenOutcome.panicked "runtime error: invalid memory address or nil pointer dereference" := by
  decide

/-- C3, amended: for every leaf issuance request (`IsCA` false, at least
one host) whose signing key or signing certificate is absent, the signing
operation does not return an error: the nil signing material reaches
`x509.CreateCertificate` unchecked and the call panics with a nil-pointer
dereference. -/
theorem C3_nil_signing_material (c : Certificate) (s k : Nat)
    (h1 : c.IsCA = false) (h2 : c.Hosts ≠ [])
    (h3 : c.CAKey = none ∨ c.CACertificate = none) :
    (GenerateCertificate c s k).1 =
      GenOutcome.panicked "runtime error: invalid memory address or nil pointer dereference" := by
  rcases hH : c.Hosts with _ | ⟨h0, rest⟩
  · exact absurd hH h2
  · rcases h3 with h3 | h3
    · by_cases hcn : c.CommonName = "" <;>
        simp [GenerateCertificate, h1, hH, h3, hcn, createCertificate]
    · rcases hK : c.CAKey with _ | ck <;>
        by_cases hcn : c.CommonName = "" <;>
          simp [GenerateCertificate, h1, hH, h3, hK, hcn, createCertificate]

/-- C3, witness for the amended claim at a concrete request. -/
theorem C3_nil_signing_material_witness :
    cNilCA.IsCA = false ∧ cNilCA.Hosts ≠ [] ∧ cNilCA.CAKey = none ∧
    (GenerateCertificate cNilCA 1 2).1 =
      GenOutcome.panicked "runtime error: invalid memory address or nil pointer dereference" :=
  ⟨rfl, by decide, rfl, C3_nil_signing_material cNilCA 1 2 rfl (by decide) (Or.inl rfl)⟩

/-- C4: for every well-formed issuance request, the subject common name
of the produced certificate is the request's `CommonName` verbatim when
non-empty, otherwise "Root CA" for the CA role, otherwise the first host
for the leaf role. -/
theorem C4_subject_common_name (c : Certificate) (s k : Nat)
    (h : c.IsCA = true ∨
      (c.Hosts ≠ [] ∧ c.CAKey.isSome = true ∧ c.CACertificate.isSome = true)) :
    (genCert c s k).SubjectCommonName =
      (if c.CommonName ≠ "" then c.CommonName
       else if c.IsCA = true then "Root CA" else c.Hosts.headD "") := by
  rcases genCert_cases c s k h with ⟨hca, hg⟩ | ⟨h0, rest, ck, cac, hca, hHs, _, _, hg⟩
  · rw [hg]
    simp [caCertVal, hca]
  · rw [hg]
    simp [leafCertVal, hca, hHs]

/-- C4, witness: a CA request and a leaf request, with the concrete
defaults "Root CA" and first host evaluated. -/
theorem C4_subject_common_name_witness :
    (genCert cCAEx 1 2).SubjectCommonName =
      (if cCAEx.CommonName ≠ "" then cCAEx.CommonName
       else if cCAEx.IsCA = true then "Root CA" else cCAEx.Hosts.headD "") ∧
    (genCert cLeafEx 3 4).SubjectCommonName =
      (if cLeafEx.CommonName ≠ "" then cLeafEx.CommonName
       else if cLeafEx.IsCA = true then "Root CA" else cLeafEx.Hosts.headD "") ∧
    (genCert cCAEx 1 2).SubjectCommonName = "Root CA" ∧
    (genCert cLeafEx 3 4).SubjectCommonName = "127.0.0.1" :=
  ⟨C4_subject_common_name cCAEx 1 2 (Or.inl rfl),
   C4_subject_common_name cLeafEx 3 4 (Or.inr ⟨by decide, rfl, rfl⟩),
   by decide, by decide⟩

/-- C5: for every well-formed leaf issuance request, each host entry is
classified as an IP-address SAN exactly when `net.ParseIP` accepts it and
as a DNS-name SAN otherwise, input order is preserved within each SAN
list (`filterMap`/`filter` of the host list), and no entry is dropped:
the two SAN lists' lengths sum to the host count. -/
theorem C5_san_classification (c : Certificate) (s k : Nat)
    (h1 : c.IsCA = false) (h2 : c.Hosts ≠ [])
    (h3 : c.CAKey.isSome = true) (h4 : c.CACertificate.isSome = true) :
    (genCert c s k).IPAddresses = c.Hosts.filterMap goParseIP ∧
    (genCert c s k).DNSNames = c.Hosts.filter (fun h => (goParseIP h).isNone) ∧
    (genCert c s k).IPAddresses.length + (genCert c s k).DNSNames.length =
      c.Hosts.length := by
  obtain ⟨ck, hK⟩ := Option.isSome_iff_exists.mp h3
  obtain ⟨cac, hC⟩ := Option.isSome_iff_exists.mp h4
  rcases hHs : c.Hosts with _ | ⟨h0, rest⟩
  · exact absurd hHs h2
  · rw [genCert_leaf c s k h0 rest ck cac h1 hHs hK hC]
    refine ⟨by simp [leafCertVal, hHs], by simp [leafCertVal, hHs], ?_⟩
    simp only [leafCertVal, hHs]
    exact length_classified goParseIP (h0 :: rest)

/-- C5, witness: hosts `["127.0.0.1", "example.com"]` yield exactly one
IP-address SAN `127.0.0.1` and one DNS-name SAN `example.com`, in that
order. -/
theorem C5_san_classification_witness :
    (genCert cLeafEx 3 4).IPAddresses = cLeafEx.Hosts.filterMap goParseIP ∧
    (genCert cLeafEx 3 4).IPAddresses = [goIPv4 127 0 0 1] ∧
    (genCert cLeafEx 3 4).DNSNames = ["example.com"] :=
  ⟨(C5_san_classification cLeafEx 3 4 rfl (by decide) rfl rfl).1,
   by decide, by decide⟩

/-- C6: for every well-formed issuance request the produced certificate
has key usage digital-signature + certificate-signing in the CA role and
digital-signature + key-encipherment in the leaf role, and in both roles
extended key usage exactly server-authentication, client-authentication. -/
theorem C6_key_usage (c : Certificate) (s k : Nat)
    (h : c.IsCA = true ∨
      (c.Hosts ≠ [] ∧ c.CAKey.isSome = true ∧ c.CACertificate.isSome = true)) :
    (genCert c s k).KeyUsage =
      (if c.IsCA = true then KeyUsageDigitalSignature ||| KeyUsageCertSign
       else KeyUsageDigitalSignature ||| KeyUsageKeyEncipherment) ∧
    (genCert c s k).ExtKeyUsage = [GoExtKeyUsage.serverAuth, GoExtKeyUsage.clientAuth] := by
  rcases genCert_cases c s k h with ⟨hca, hg⟩ | ⟨h0, rest, ck, cac, hca, hHs, _, _, hg⟩
  · rw [hg]
    simp [caCertVal, hca]
  · rw [hg]
    simp [leafCertVal, hca]

/-- C6, witness: both roles at concrete requests. -/
theorem C6_key_usage_witness :
    (genCert cCAEx 1 2).KeyUsage = KeyUsageDigitalSignature ||| KeyUsageCertSign ∧
    (genCert cLeafEx 3 4).KeyUsage = KeyUsageDigitalSignature ||| KeyUsageKeyEncipherment ∧
    (genCert cCAEx 1 2).ExtKeyUsage = [GoExtKeyUsage.serverAuth, GoExtKeyUsage.clientAuth] :=
  ⟨by simpa using (C6_key_usage cCAEx 1 2 (Or.inl rfl)).1,
   by simpa using (C6_key_usage cLeafEx 3 4 (Or.inr ⟨by decide, rfl, rfl⟩)).1,
   (C6_key_usage cCAEx 1 2 (Or.inl rfl)).2⟩

/-- C2: in the orchestration, whenever the CA certificate container
already exists at the configured path at probe time, no CA-generation
event occurs in the invocation; and when the existing container decodes
successfully, the decode event heads the trace, a leaf is issued, and
every leaf issued is a certificate signed with the decoded CA key whose
issuer is the decoded CA certificate's subject — never a freshly
generated CA. -/
theorem C2_ca_reuse (fs : FS) (hosts : List String) (h0 : String) (rest : List String)
    (nm : String) (bits nb days : Int) (out : String) (a b d e : Nat)
    (hh : hosts = h0 :: rest)
    (hstat : fsStat fs ((if out = "" then "cert" else out) ++ "/ca" ++ ".crt") = true) :
    noGeneratedCA (mainRun fs hosts nm bits nb days out a b d e).events = true ∧
    (∀ caCerts caKey caCert caRest,
      ReadCertificate fs ((if out = "" then "cert" else out) ++ "/ca") =
        Except.ok (caCerts, caKey) →
      caCerts = caCert :: caRest →
      leafSignedBy caKey caCert.SubjectCommonName
          (mainRun fs hosts nm bits nb days out a b d e).events = true ∧
      (mainRun fs hosts nm bits nb days out a b d e).events.head? =
        some (MainEvent.readCA caCerts caKey) ∧
      (mainRun fs hosts nm bits nb days out a b d e).events.any isLeafIssued = true) := by
  subst hh
  rcases hr : ReadCertificate fs ((if out = "" then "cert" else out) ++ "/ca") with
    err | ⟨caCerts0, caKey0⟩
  · constructor
    · simp [mainRun, hstat, hr, noGeneratedCA]
    · intro caCerts caKey caCert caRest hread _
      cases hread
  · cases caCerts0 with
    | nil =>
      constructor
      · simp [mainRun, hstat, hr, noGeneratedCA]
      · intro caCerts caKey caCert caRest hread hcerts
        injection hread with hpair
        cases hpair
        simp at hcerts
    | cons caCert0 caRest0 =>
      have hmain : mainRun fs (h0 :: rest) nm bits nb days out a b d e =
          issueLeaf fs (h0 :: rest) h0 nm bits nb (nb + days * 24)
            (if out = "" then "cert" else out) caCert0 caKey0
            [MainEvent.readCA (caCert0 :: caRest0) caKey0] d e := by
        simp [mainRun, hstat, hr]
      constructor
      · rw [hmain, issueLeaf_events]
        simp [noGeneratedCA, leafCertVal]
      · intro caCerts caKey caCert caRest hread hcerts
        injection hread with hpair
        cases hpair
        injection hcerts with hc1 hc2
        subst hc1
        rw [hmain, issueLeaf_events]
        refine ⟨?_, by simp, by simp [isLeafIssued]⟩
        simp [leafSignedBy, leafCertVal]

/-- C2, witness: a filesystem holding a persisted CA under `cert/ca`
makes the orchestration reuse it for the issued leaf. -/
theorem C2_ca_reuse_witness :
    fsStat fsWithCA ((if "cert" = "" then "cert" else "cert") ++ "/ca" ++ ".crt") = true ∧
    noGeneratedCA (mainRun fsWithCA ["example.com"] "" 2048 0 365 "cert" 1 2 3 4).events = true ∧
    leafSignedBy caKeyEx caCertEx.SubjectCommonName
      (mainRun fsWithCA ["example.com"] "" 2048 0 365 "cert" 1 2 3 4).events = true ∧
    (mainRun fsWithCA ["example.com"] "" 2048 0 365 "cert" 1 2 3 4).events.any
      isLeafIssued = true := by
  have h := C2_ca_reuse fsWithCA ["example.com"] "example.com" [] "" 2048 0 365 "cert"
    1 2 3 4 rfl (by decide)
  have h2 := h.2 [caCertEx] caKeyEx caCertEx [] (by decide) rfl
  exact ⟨by decide, h.1, h2.1, h2.2.2⟩

/-- C7: decode of a persisted pair fails with distinguishable errors per
failure class — missing file on either side yields an I/O error naming
that side's path, a missing or malformed PEM block yields the
invalid-certificate (respectively invalid-key) error, and an unparsable
DER payload yields the respective parser's error; the certificate-side
error values differ from the key-side ones. -/
theorem C7_read_error_taxonomy (fs : FS) (name : String) :
    (lookupFile fs (name ++ ".crt") = none →
      ReadCertificate fs name = Except.error (GoError.ioError (name ++ ".crt"))) ∧
    (∀ bb, lookupFile fs (name ++ ".crt") = some bb → pemDecode bb = none →
      ReadCertificate fs name = Except.error GoError.errInvalidCertificate) ∧
    (∀ lbl der err, lookupFile fs (name ++ ".crt") = some (FileBytes.pem lbl der) →
      parseCertificates der = Except.error err →
      ReadCertificate fs name = Except.error err) ∧
    (∀ lbl cc, lookupFile fs (name ++ ".crt") = some (FileBytes.pem lbl (Der.cert cc)) →
      lookupFile fs (name ++ ".key") = none →
      ReadCertificate fs name = Except.error (GoError.ioError (name ++ ".key"))) ∧
    (∀ lbl cc kb, lookupFile fs (name ++ ".crt") = some (FileBytes.pem lbl (Der.cert cc)) →
      lookupFile fs (name ++ ".key") = some kb → pemDecode kb = none →
      ReadCertificate fs name = Except.error GoError.errInvalidCertificateKey) ∧
    (∀ lbl cc lbl2 kder err,
      lookupFile fs (name ++ ".crt") = some (FileBytes.pem lbl (Der.cert cc)) →
      lookupFile fs (name ++ ".key") = some (FileBytes.pem lbl2 kder) →
      parsePKCS1PrivateKey kder = Except.error err →
      ReadCertificate fs name = Except.error err) ∧
    GoError.errInvalidCertificate ≠ GoError.errInvalidCertificateKey ∧
    GoError.x509ParseCertificatesError ≠ GoError.pkcs1ParseError ∧
    (name ++ ".crt") ≠ (name ++ ".key") := by
  refine ⟨?_, ?_, ?_, ?_, ?_, ?_, by decide, by decide, crt_ne_key name⟩
  · intro hl
    simp [ReadCertificate, hl]
  · intro bb hl hp
    simp [ReadCertificate, hl, hp]
  · intro lbl der err hl hp
    simp [ReadCertificate, hl, hp, pemDecode]
  · intro lbl cc hl hk
    simp [ReadCertificate, hl, hk, pemDecode, parseCertificates]
  · intro lbl cc kb hl hk hp
    simp [ReadCertificate, hl, hk, hp, parseCertificates,
      show pemDecode (FileBytes.pem lbl (Der.cert cc)) = some (lbl, Der.cert cc) from rfl]
  · intro lbl cc lbl2 kder err hl hk hp
    simp [ReadCertificate, hl, hk, hp, pemDecode, parseCertificates]

/-- C7, witness: each failure class realized on a concrete filesystem. -/
theorem C7_read_error_taxonomy_witness :
    ReadCertificate fsEmptyFS "ca" = Except.error (GoError.ioError ("ca" ++ ".crt")) ∧
    ReadCertificate fsRawCrt "ca" = Except.error GoError.errInvalidCertificate ∧
    ReadCertificate fsBadDerCrt "ca" = Except.error GoError.x509ParseCertificatesError ∧
    ReadCertificate fsCrtOnly "ca" = Except.error (GoError.ioError ("ca" ++ ".key")) ∧
    ReadCertificate fsRawKey "ca" = Except.error GoError.errInvalidCertificateKey ∧
    ReadCertificate fsBadDerKey "ca" = Except.error GoError.pkcs1ParseError :=
  ⟨(C7_read_error_taxonomy fsEmptyFS "ca").1 (by decide),
   (C7_read_error_taxonomy fsRawCrt "ca").2.1 (FileBytes.raw "0") (by decide) rfl,
   (C7_read_error_taxonomy fsBadDerCrt "ca").2.2.1 "CERTIFICATE" (Der.junk "x")
     GoError.x509ParseCertificatesError (by decide) rfl,
   (C7_read_error_taxonomy fsCrtOnly "ca").2.2.2.1 "CERTIFICATE" caCertEx
     (by decide) (by decide),
   (C7_read_error_taxonomy fsRawKey "ca").2.2.2.2.1 "CERTIFICATE" caCertEx
     (FileBytes.raw "0") (by decide) (by decide) rfl,
   (C7_read_error_taxonomy fsBadDerKey "ca").2.2.2.2.2.1 "CERTIFICATE" caCertEx
     "RSA PRIVATE KEY" (Der.junk "x") GoError.pkcs1ParseError (by decide) (by decide) rfl⟩

/-- C8: `WriteCertificate` writes `<name>.crt` before `<name>.key`: a
failure creating the certificate file aborts with nothing written; a
failure creating the key file after the certificate file has been written
returns an error naming the key path while the certificate file stays in
place (no rollback) and the key file is untouched; on success both
containers are present with their labels. -/
theorem C8_write_order (fs : FS) (name : String) (certificate : Der)
    (key : RSAPrivateKey) :
    (fsCreateFails fs (name ++ ".crt") = true →
      WriteCertificate fs name certificate key =
        (Except.error (GoError.ioError (name ++ ".crt")), fs)) ∧
    (fsCreateFails fs (name ++ ".crt") = false →
      fsCreateFails fs (name ++ ".key") = true →
      (WriteCertificate fs name certificate key).1 =
        Except.error (GoError.ioError (name ++ ".key")) ∧
      lookupFile (WriteCertificate fs name certificate key).2 (name ++ ".crt") =
        some (FileBytes.pem "CERTIFICATE" certificate) ∧
      lookupFile (WriteCertificate fs name certificate key).2 (name ++ ".key") =
        lookupFile fs (name ++ ".key")) ∧
    (fsCreateFails fs (name ++ ".crt") = false →
      fsCreateFails fs (name ++ ".key") = false →
      (WriteCertificate fs name certificate key).1 = Except.ok () ∧
      lookupFile (WriteCertificate fs name certificate key).2 (name ++ ".crt") =
        some (FileBytes.pem "CERTIFICATE" certificate) ∧
      lookupFile (WriteCertificate fs name certificate key).2 (name ++ ".key") =
        some (FileBytes.pem "RSA PRIVATE KEY" (Der.pkcs1Key key))) := by
  have hbeq1 : ((name ++ ".crt") == (name ++ ".key")) = false :=
    beq_eq_false_iff_ne.mpr (crt_ne_key name)
  have hbeq2 : ((name ++ ".key") == (name ++ ".crt")) = false :=
    beq_eq_false_iff_ne.mpr (Ne.symm (crt_ne_key name))
  have hbne1 : ((name ++ ".crt") != (name ++ ".key")) = true := by
    simp [bne, hbeq1]
  refine ⟨?_, ?_, ?_⟩
  · intro h1
    have hm1 : (name ++ ".crt") ∈ fs.badPaths := by
      simpa [fsCreateFails] using h1
    simp [WriteCertificate, fsCreateFails, hm1]
  · intro h1 h2
    have hm1 : (name ++ ".crt") ∉ fs.badPaths := by
      simpa [fsCreateFails] using h1
    have hm2 : (name ++ ".key") ∈ fs.badPaths := by
      simpa [fsCreateFails] using h2
    refine ⟨?_, ?_, ?_⟩
    · simp [WriteCertificate, fsWrite, fsCreateFails, hm1, hm2]
    · simp [WriteCertificate, fsWrite, fsCreateFails, hm1, hm2, lookupFile, List.lookup]
    · simp [WriteCertificate, fsWrite, fsCreateFails, hm1, hm2, lookupFile, List.lookup,
        hbeq2, lookup_filter_ne fs.files (name ++ ".key") (name ++ ".crt")
          (Ne.symm (crt_ne_key name))]
  · intro h1 h2
    have hm1 : (name ++ ".crt") ∉ fs.badPaths := by
      simpa [fsCreateFails] using h1
    have hm2 : (name ++ ".key") ∉ fs.badPaths := by
      simpa [fsCreateFails] using h2
    refine ⟨?_, ?_, ?_⟩
    · simp [WriteCertificate, fsWrite, fsCreateFails, hm1, hm2]
    · simp [WriteCertificate, fsWrite, fsCreateFails, hm1, hm2, lookupFile, List.lookup,
        hbeq1, hbeq2, hbne1, List.filter_cons]
    · simp [WriteCertificate, fsWrite, fsCreateFails, hm1, hm2, lookupFile, List.lookup]

/-- C8, witness: key-file creation failure after the certificate file has
been written, with the certificate file left in place. -/
theorem C8_write_order_witness :
    fsCreateFails fsBadKeyPath ("out/ca" ++ ".crt") = false ∧
    fsCreateFails fsBadKeyPath ("out/ca" ++ ".key") = true ∧
    (WriteCertificate fsBadKeyPath "out/ca" (Der.cert caCertEx) caKeyEx).1 =
      Except.error (GoError.ioError ("out/ca" ++ ".key")) ∧
    lookupFile (WriteCertificate fsBadKeyPath "out/ca" (Der.cert caCertEx) caKeyEx).2
      ("out/ca" ++ ".crt") = some (FileBytes.pem "CERTIFICATE" (Der.cert caCertEx)) :=
  ⟨by decide, by decide,
   ((C8_write_order fsBadKeyPath "out/ca" (Der.cert caCertEx) caKeyEx).2.1
     (by decide) (by decide)).1,
   ((C8_write_order fsBadKeyPath "out/ca" (Der.cert caCertEx) caKeyEx).2.1
     (by decide) (by decide)).2.1⟩

/-- C9: for every successful issuance call the assigned serial number is
the value drawn below `serialNumberMax`, hence a non-negative integer
strictly below 2^128.  (The draw is `rand.Int(rand.Reader, 1 << 128)`,
modelled as the entropy reduced modulo 2^128.) -/
theorem C9_serial_bound (c : Certificate) (s k : Nat)
    (h : c.IsCA = true ∨
      (c.Hosts ≠ [] ∧ c.CAKey.isSome = true ∧ c.CACertificate.isSome = true)) :
    (genCert c s k).SerialNumber = s % serialNumberMax ∧
    (genCert c s k).SerialNumber < 2 ^ 128 := by
  have hser : (genCert c s k).SerialNumber = s % serialNumberMax := by
    rcases genCert_cases c s k h with ⟨_, hg⟩ | ⟨h0, rest, ck, cac, _, _, _, _, hg⟩ <;>
      rw [hg] <;> rfl
  refine ⟨hser, ?_⟩
  rw [hser]
  exact Nat.mod_lt s (by decide)

/-- C9, witness: both roles at concrete requests and entropies. -/
theorem C9_serial_bound_witness :
    (genCert cCAEx 1 2).SerialNumber < 2 ^ 128 ∧
    (genCert cLeafEx 3 4).SerialNumber < 2 ^ 128 ∧
    (genCert cCAEx 1 2).SerialNumber = 1 :=
  ⟨(C9_serial_bound cCAEx 1 2 (Or.inl rfl)).2,
   (C9_serial_bound cLeafEx 3 4 (Or.inr ⟨by decide, rfl, rfl⟩)).2,
   by decide⟩

/-- C10: for every issuance request with `IsCA` true, any caller-supplied
signing key and signing certificate are ignored — replacing them changes
nothing about the call — and the produced certificate is self-signed:
its issuer equals its own subject, it embeds the public key of the
freshly generated key, and its signature is made with that fresh key,
which is built from this call's key material. -/
theorem C10_ca_ignores_signing_material (c : Certificate) (s k : Nat)
    (x : Option RSAPrivateKey) (y : Option X509Certificate) (h : c.IsCA = true) :
    GenerateCertificate { c with CAKey := x, CACertificate := y } s k =
      GenerateCertificate c s k ∧
    (genCert c s k).SignedBy = some (genKey c s k) ∧
    (genCert c s k).PublicKey = some (publicKey (genKey c s k)) ∧
    (genCert c s k).IssuerCommonName = (genCert c s k).SubjectCommonName ∧
    genKey c s k = genKeyVal c k := by
  have hmod : ({ c with CAKey := x, CACertificate := y } : Certificate).IsCA = true := h
  refine ⟨?_, ?_, ?_, ?_, genKey_ca c s k h⟩
  · rw [gen_ca _ s k hmod, gen_ca c s k h]
    rfl
  · rw [genCert_ca c s k h, genKey_ca c s k h]
    rfl
  · rw [genCert_ca c s k h, genKey_ca c s k h]
    rfl
  · rw [genCert_ca c s k h]
    rfl

/-- C10, witness: a CA request carrying stale signing material produces
the same result as without it, self-signed with the fresh key. -/
theorem C10_ca_ignores_signing_material_witness :
    GenerateCertificate { cCAEx with CAKey := some caKeyEx, CACertificate := some caCertEx }
      1 2 = GenerateCertificate cCAEx 1 2 ∧
    (genCert cCAEx 1 2).SignedBy = some (genKey cCAEx 1 2) ∧
    (genCert cCAEx 1 2).IssuerCommonName = (genCert cCAEx 1 2).SubjectCommonName :=
  ⟨(C10_ca_ignores_signing_material cCAEx 1 2 (some caKeyEx) (some caCertEx) rfl).1,
   (C10_ca_ignores_signing_material cCAEx 1 2 (some caKeyEx) (some caCertEx) rfl).2.1,
   (C10_ca_ignores_signing_material cCAEx 1 2 (some caKeyEx) (some caCertEx) rfl).2.2.2.1⟩

end Selfca
